import Mathlib

/-!
Shallow embedding of `polygons.py`: a regular polygon with two mutable
primitives (vertex count `n`, circumradius `R`), five lazily computed and
cached derived properties with per-property computation counters, cache
invalidation on mutation, comparison operators, and a sequence of polygons
with an iterator and a maximum-efficiency query.

Python floats are modelled as real numbers; `math.sin`/`math.cos` as
`Real.sin`/`Real.cos`.  Each `cached_property` slot of the Python object is
an `Option ℝ` field (`none` = absent from `__dict__`); each `_*_calls`
counter is a `ℕ` field.  A property getter is a function
`Polygon → ℝ × Polygon`: it returns the value read together with the
(possibly mutated) object state.  A Python exception raised before any
assignment is modelled by returning the unchanged state together with the
error message.
-/

open Real

/-- State of a `Polygon` instance: primitives `n`, `R`, the five
`cached_property` slots, and the five computation counters set up in
`__init__`. -/
structure Polygon where
  n : ℤ
  R : ℝ
  interior_angle_cache : Option ℝ
  side_length_cache : Option ℝ
  apothem_cache : Option ℝ
  area_cache : Option ℝ
  perimeter_cache : Option ℝ
  interior_angle_calls : ℕ
  side_length_calls : ℕ
  apothem_calls : ℕ
  area_calls : ℕ
  perimeter_calls : ℕ

/-- The instance produced by a successful `Polygon.__init__(n, R)`: caches
empty, counters zero. -/
def freshPolygon (n : ℤ) (R : ℝ) : Polygon :=
  { n := n
    R := R
    interior_angle_cache := none
    side_length_cache := none
    apothem_cache := none
    area_cache := none
    perimeter_cache := none
    interior_angle_calls := 0
    side_length_calls := 0
    apothem_calls := 0
    area_calls := 0
    perimeter_calls := 0 }

/-- `Polygon.__init__`: raises `ValueError` when `n < 3`, otherwise returns
a fresh instance. -/
def mkPolygon (n : ℤ) (R : ℝ) : Except String Polygon :=
  if n < 3 then Except.error "Polygon must have at least 3 vertices."
  else Except.ok (freshPolygon n R)

/-- `Polygon.count_vertices` property (read). -/
def Polygon.count_vertices (p : Polygon) : ℤ := p.n

/-- `Polygon.count_edges` property (read). -/
def Polygon.count_edges (p : Polygon) : ℤ := p.n

/-- `Polygon.circumradius` property (read). -/
def Polygon.circumradius (p : Polygon) : ℝ := p.R

/-- `Polygon._invalidate_cache`: removes every cached property from
`__dict__`; counters are untouched. -/
def Polygon.invalidate_cache (p : Polygon) : Polygon :=
  { p with
    interior_angle_cache := none
    side_length_cache := none
    apothem_cache := none
    area_cache := none
    perimeter_cache := none }

/-- `Polygon.count_vertices` setter: raises `ValueError` when `new_n < 3`
(state unchanged, modelled by returning `p` itself next to the message),
otherwise assigns `_n` and invalidates the cache. -/
def Polygon.set_count_vertices (p : Polygon) (new_n : ℤ) :
    Option String × Polygon :=
  if new_n < 3 then (some "Polygon must have at least 3 vertices.", p)
  else (none, Polygon.invalidate_cache { p with n := new_n })

/-- `Polygon.circumradius` setter: assigns `_R` and invalidates the cache;
never fails. -/
def Polygon.set_circumradius (p : Polygon) (new_R : ℝ) : Polygon :=
  Polygon.invalidate_cache { p with R := new_R }

noncomputable section

/-- `Polygon.interior_angle` (a `cached_property`): on a cache miss,
increment `_interior_angle_calls` and compute `(n - 2) * 180 / n`. -/
def Polygon.interior_angle (p : Polygon) : ℝ × Polygon :=
  match p.interior_angle_cache with
  | some v => (v, p)
  | none =>
      let p1 := { p with interior_angle_calls := p.interior_angle_calls + 1 }
      let v : ℝ := ((p1.n : ℝ) - 2) * 180 / (p1.n : ℝ)
      (v, { p1 with interior_angle_cache := some v })

/-- `Polygon.side_length` (a `cached_property`): on a cache miss, increment
`_side_length_calls` and compute `2 * R * sin(pi / n)`. -/
def Polygon.side_length (p : Polygon) : ℝ × Polygon :=
  match p.side_length_cache with
  | some v => (v, p)
  | none =>
      let p1 := { p with side_length_calls := p.side_length_calls + 1 }
      let v : ℝ := 2 * p1.R * Real.sin (Real.pi / (p1.n : ℝ))
      (v, { p1 with side_length_cache := some v })

/-- `Polygon.apothem` (a `cached_property`): on a cache miss, increment
`_apothem_calls` and compute `R * cos(pi / n)`. -/
def Polygon.apothem (p : Polygon) : ℝ × Polygon :=
  match p.apothem_cache with
  | some v => (v, p)
  | none =>
      let p1 := { p with apothem_calls := p.apothem_calls + 1 }
      let v : ℝ := p1.R * Real.cos (Real.pi / (p1.n : ℝ))
      (v, { p1 with apothem_cache := some v })

/-- `Polygon.area` (a `cached_property`): on a cache miss, increment
`_area_calls`, then evaluate `n / 2 * self.side_length * self.apothem`,
reading the two dependencies through their getters (which may populate
their own caches). -/
def Polygon.area (p : Polygon) : ℝ × Polygon :=
  match p.area_cache with
  | some v => (v, p)
  | none =>
      let p1 := { p with area_calls := p.area_calls + 1 }
      let sres := Polygon.side_length p1
      let ares := Polygon.apothem sres.2
      let v : ℝ := (p1.n : ℝ) / 2 * sres.1 * ares.1
      (v, { ares.2 with area_cache := some v })

/-- `Polygon.perimeter` (a `cached_property`): on a cache miss, increment
`_perimeter_calls`, then evaluate `n * self.side_length`, reading the
dependency through its getter. -/
def Polygon.perimeter (p : Polygon) : ℝ × Polygon :=
  match p.perimeter_cache with
  | some v => (v, p)
  | none =>
      let p1 := { p with perimeter_calls := p.perimeter_calls + 1 }
      let sres := Polygon.side_length p1
      let v : ℝ := (p1.n : ℝ) * sres.1
      (v, { sres.2 with perimeter_cache := some v })

open Classical in
/-- `Polygon.__eq__`: against another `Polygon` compare `count_edges` and
`circumradius`; against any other operand return the `NotImplemented`
sentinel (modelled as `none`). -/
def Polygon.eqOp {β : Type} (p : Polygon) (other : Polygon ⊕ β) :
    Option Bool :=
  match other with
  | Sum.inl q =>
      some (if p.count_edges = q.count_edges ∧ p.circumradius = q.circumradius
            then true else false)
  | Sum.inr _ => none

open Classical in
/-- `Polygon.__gt__`: against another `Polygon` compare `count_vertices`;
against any other operand return the `NotImplemented` sentinel. -/
def Polygon.gtOp {β : Type} (p : Polygon) (other : Polygon ⊕ β) :
    Option Bool :=
  match other with
  | Sum.inl q =>
      some (if q.count_vertices < p.count_vertices then true else false)
  | Sum.inr _ => none

end

/-- State of a `Polygons` sequence object: `_m` and `_R`, fixed at
construction. -/
structure Polygons where
  m : ℤ
  R : ℝ

/-- `Polygons.__init__`: raises `ValueError` when `m < 3`. -/
def mkPolygons (m : ℤ) (R : ℝ) : Except String Polygons :=
  if m < 3 then Except.error "m must be greater than 3"
  else Except.ok { m := m, R := R }

/-- `Polygons.__len__`: returns `m - 2`. -/
def Polygons.len (s : Polygons) : ℤ := s.m - 2

/-- State of a `Polygons.PolygonIterator`: `_m`, `_R` and the cursor
`_index`. -/
structure PolygonIterator where
  m : ℤ
  R : ℝ
  index : ℤ

/-- `Polygons.__iter__`: a fresh iterator with its cursor at 3. -/
def Polygons.iter (s : Polygons) : PolygonIterator :=
  { m := s.m, R := s.R, index := 3 }

/-- `PolygonIterator.__next__`: `StopIteration` (modelled as `none`) once
the cursor exceeds `_m`; otherwise a newly constructed
`Polygon(index, R)` and the advanced iterator. -/
def PolygonIterator.next (it : PolygonIterator) :
    Option (Polygon × PolygonIterator) :=
  if it.index > it.m then none
  else some (freshPolygon it.index it.R, { it with index := it.index + 1 })

/-- Run an iterator to exhaustion, collecting the yielded polygons.  The
fuel argument only bounds the number of `__next__` calls so that the
function is structurally recursive; any fuel at least `m - 2` is enough
(proved below). -/
def runIter : ℕ → PolygonIterator → List Polygon
  | 0, _ => []
  | fuel + 1, it =>
      match PolygonIterator.next it with
      | none => []
      | some pr => pr.1 :: runIter fuel pr.2

/-- The list of elements one full iteration pass over `Polygons(m, R)`
yields: fresh polygons with vertex counts `3, 4, ..., m`. -/
def polygonList (m : ℤ) (R : ℝ) : List Polygon :=
  (List.range (m - 2).toNat).map (fun (i : ℕ) => freshPolygon (3 + (i : ℤ)) R)

noncomputable section

/-- The area-to-perimeter ratio of a polygon as a real number, written
with total division.  This is the mathematical value the selection is
stated against; it agrees with the key lambda whenever the perimeter is
nonzero.  The key as executed, including its division-by-zero failure, is
`effKeyE` below. -/
def effKey (p : Polygon) : ℝ :=
  let ares := Polygon.area p
  let pres := Polygon.perimeter ares.2
  ares.1 / pres.1

open Classical in
/-- The key `lambda p: p.area / p.perimeter` as executed: read `area`
then `perimeter` through the getters (the object the key mutates is
discarded), and raise `ZeroDivisionError` (modelled as an error result)
when the perimeter is zero, as Python float division does. -/
def effKeyE (p : Polygon) : Except String ℝ :=
  let ares := Polygon.area p
  let pres := Polygon.perimeter ares.2
  if pres.1 = 0 then Except.error "float division by zero"
  else Except.ok (ares.1 / pres.1)

open Classical in
/-- The loop of Python `max(iterable, key=key)` once a best element and
its key are in hand: evaluate the remaining keys in iteration order,
propagate the first key error, and replace the best only on a strictly
larger key (so the first maximal element wins ties). -/
def maxFold (key : Polygon → Except String ℝ) :
    Polygon → ℝ → List Polygon → Except String Polygon
  | best, _, [] => Except.ok best
  | best, kb, y :: ys =>
      match key y with
      | Except.error e => Except.error e
      | Except.ok ky =>
          if kb < ky then maxFold key y ky ys else maxFold key best kb ys

/-- Python `max(iterable, key=key)`: `none` on an empty iterable,
otherwise evaluate the first element's key and run the selection loop;
an error raised by any key evaluation propagates out of `max`. -/
def maxByKeyE (key : Polygon → Except String ℝ) :
    List Polygon → Option (Except String Polygon)
  | [] => none
  | x :: xs =>
      some (match key x with
            | Except.error e => Except.error e
            | Except.ok kx => maxFold key x kx xs)

/-- `Polygons.max_efficiency_polygon`: `max(self, key=lambda p:
p.area/p.perimeter)` over one full iteration pass; a `ZeroDivisionError`
raised by the key (zero perimeter) propagates to the caller. -/
def Polygons.max_efficiency_polygon (s : Polygons) :
    Option (Except String Polygon) :=
  maxByKeyE effKeyE (polygonList s.m s.R)

end

/-- All five cache slots are empty: the state right after construction or
right after `_invalidate_cache`. -/
def ClearCaches (p : Polygon) : Prop :=
  p.interior_angle_cache = none ∧ p.side_length_cache = none ∧
  p.apothem_cache = none ∧ p.area_cache = none ∧ p.perimeter_cache = none

/-- The two states have identical computation counters. -/
def CountersEq (p q : Polygon) : Prop :=
  p.interior_angle_calls = q.interior_angle_calls ∧
  p.side_length_calls = q.side_length_calls ∧
  p.apothem_calls = q.apothem_calls ∧
  p.area_calls = q.area_calls ∧
  p.perimeter_calls = q.perimeter_calls

/-- The counters of `p` are componentwise at most those of `q`. -/
def CountersLe (p q : Polygon) : Prop :=
  p.interior_angle_calls ≤ q.interior_angle_calls ∧
  p.side_length_calls ≤ q.side_length_calls ∧
  p.apothem_calls ≤ q.apothem_calls ∧
  p.area_calls ≤ q.area_calls ∧
  p.perimeter_calls ≤ q.perimeter_calls

/-- One public operation on a `Polygon` instance during its lifetime:
a mutation of either primitive or a read of a derived property. -/
inductive PolyOp where
  | setN (k : ℤ)
  | setR (r : ℝ)
  | readAngle
  | readSide
  | readApothem
  | readArea
  | readPerimeter

/-- A read of one derived property. -/
inductive ReadOp where
  | readAngle
  | readSide
  | readApothem
  | readArea
  | readPerimeter

noncomputable section

/-- The instance state after one operation (a failed `set_count_vertices`
leaves the state unchanged). -/
def applyOp (p : Polygon) : PolyOp → Polygon
  | PolyOp.setN k => (Polygon.set_count_vertices p k).2
  | PolyOp.setR r => Polygon.set_circumradius p r
  | PolyOp.readAngle => (Polygon.interior_angle p).2
  | PolyOp.readSide => (Polygon.side_length p).2
  | PolyOp.readApothem => (Polygon.apothem p).2
  | PolyOp.readArea => (Polygon.area p).2
  | PolyOp.readPerimeter => (Polygon.perimeter p).2

/-- The instance state after a sequence of operations. -/
def applyOps (p : Polygon) (ops : List PolyOp) : Polygon :=
  ops.foldl applyOp p

/-- The instance state after one derived-property read. -/
def applyRead (p : Polygon) : ReadOp → Polygon
  | ReadOp.readAngle => (Polygon.interior_angle p).2
  | ReadOp.readSide => (Polygon.side_length p).2
  | ReadOp.readApothem => (Polygon.apothem p).2
  | ReadOp.readArea => (Polygon.area p).2
  | ReadOp.readPerimeter => (Polygon.perimeter p).2

/-- The instance state after a sequence of derived-property reads. -/
def applyReads (p : Polygon) (ops : List ReadOp) : Polygon :=
  ops.foldl applyRead p

/-- Reading each derived property of `p` computes it from the current
primitives, stores it, and increments exactly that property's counter by
one.  This is the behaviour the spec demands of the first read after
construction or after an invalidation. -/
def RecomputeSpec (p : Polygon) : Prop :=
  ((Polygon.interior_angle p).1 = ((p.n : ℝ) - 2) * 180 / (p.n : ℝ) ∧
    (Polygon.interior_angle p).2.interior_angle_cache =
      some (Polygon.interior_angle p).1 ∧
    (Polygon.interior_angle p).2.interior_angle_calls =
      p.interior_angle_calls + 1) ∧
  ((Polygon.side_length p).1 = 2 * p.R * Real.sin (Real.pi / (p.n : ℝ)) ∧
    (Polygon.side_length p).2.side_length_cache =
      some (Polygon.side_length p).1 ∧
    (Polygon.side_length p).2.side_length_calls = p.side_length_calls + 1) ∧
  ((Polygon.apothem p).1 = p.R * Real.cos (Real.pi / (p.n : ℝ)) ∧
    (Polygon.apothem p).2.apothem_cache = some (Polygon.apothem p).1 ∧
    (Polygon.apothem p).2.apothem_calls = p.apothem_calls + 1) ∧
  ((Polygon.area p).1 = (p.n : ℝ) / 2 * (2 * p.R * Real.sin (Real.pi / (p.n : ℝ)))
      * (p.R * Real.cos (Real.pi / (p.n : ℝ))) ∧
    (Polygon.area p).2.area_cache = some (Polygon.area p).1 ∧
    (Polygon.area p).2.area_calls = p.area_calls + 1) ∧
  ((Polygon.perimeter p).1 = (p.n : ℝ) * (2 * p.R * Real.sin (Real.pi / (p.n : ℝ))) ∧
    (Polygon.perimeter p).2.perimeter_cache = some (Polygon.perimeter p).1 ∧
    (Polygon.perimeter p).2.perimeter_calls = p.perimeter_calls + 1)

/-- Repeated reads are idempotent: a second read of the same property
returns the already stored value and leaves the state (counters included)
untouched. -/
def IdemSpec (q : Polygon) : Prop :=
  Polygon.interior_angle (Polygon.interior_angle q).2 =
    ((Polygon.interior_angle q).1, (Polygon.interior_angle q).2) ∧
  Polygon.side_length (Polygon.side_length q).2 =
    ((Polygon.side_length q).1, (Polygon.side_length q).2) ∧
  Polygon.apothem (Polygon.apothem q).2 =
    ((Polygon.apothem q).1, (Polygon.apothem q).2) ∧
  Polygon.area (Polygon.area q).2 =
    ((Polygon.area q).1, (Polygon.area q).2) ∧
  Polygon.perimeter (Polygon.perimeter q).2 =
    ((Polygon.perimeter q).1, (Polygon.perimeter q).2)

/-- Each cached slot, when present, holds exactly the value the formulas
give for the current primitives (the spec's no-stale-cache invariant). -/
def Consistent (p : Polygon) : Prop :=
  (∀ v, p.interior_angle_cache = some v →
    v = ((p.n : ℝ) - 2) * 180 / (p.n : ℝ)) ∧
  (∀ v, p.side_length_cache = some v →
    v = 2 * p.R * Real.sin (Real.pi / (p.n : ℝ))) ∧
  (∀ v, p.apothem_cache = some v →
    v = p.R * Real.cos (Real.pi / (p.n : ℝ))) ∧
  (∀ v, p.area_cache = some v →
    v = (p.n : ℝ) / 2 * (2 * p.R * Real.sin (Real.pi / (p.n : ℝ)))
      * (p.R * Real.cos (Real.pi / (p.n : ℝ)))) ∧
  (∀ v, p.perimeter_cache = some v →
    v = (p.n : ℝ) * (2 * p.R * Real.sin (Real.pi / (p.n : ℝ))))

end

/-- Invariant used for the no-redundant-recomputation property: relative
to baseline counter values `cs` (side length) and `ca` (apothem), each of
the two counters has grown by at most one, and has not grown at all while
its cache slot is still empty. -/
def SideApoInv (cs ca : ℕ) (p : Polygon) : Prop :=
  p.side_length_calls ≤ cs + 1 ∧
  (p.side_length_cache = none → p.side_length_calls ≤ cs) ∧
  p.apothem_calls ≤ ca + 1 ∧
  (p.apothem_cache = none → p.apothem_calls ≤ ca)

/-- `r` is the first element of `l` attaining the maximal key: `l` splits
as an initial segment of strictly smaller keys, then `r`, then a tail of
keys at most `key r`. -/
def IsFirstMax (key : Polygon → ℝ) (l : List Polygon) (r : Polygon) : Prop :=
  ∃ l1 l2, l = l1 ++ r :: l2 ∧ (∀ y ∈ l1, key y < key r) ∧
    ∀ y ∈ l, key y ≤ key r

/-! ### Basic lemmas about the cache discipline -/

lemma recomputeSpec_of_clearCaches (p : Polygon) (h : ClearCaches p) :
    RecomputeSpec p := by
  obtain ⟨h1, h2, h3, h4, h5⟩ := h
  obtain ⟨n, R, ic, sc, ac, arc, pc, c1, c2, c3, c4, c5⟩ := p
  simp only at h1 h2 h3 h4 h5
  subst h1 h2 h3 h4 h5
  refine ⟨?_, ?_, ?_, ?_, ?_⟩ <;>
    simp [Polygon.interior_angle, Polygon.side_length, Polygon.apothem,
      Polygon.area, Polygon.perimeter, RecomputeSpec]

lemma idemSpec_all (q : Polygon) : IdemSpec q := by
  obtain ⟨n, R, ic, sc, ac, arc, pc, c1, c2, c3, c4, c5⟩ := q
  refine ⟨?_, ?_, ?_, ?_, ?_⟩
  · cases ic <;> simp [Polygon.interior_angle]
  · cases sc <;> simp [Polygon.side_length]
  · cases ac <;> simp [Polygon.apothem]
  · cases arc <;> cases sc <;> cases ac <;>
      simp [Polygon.area, Polygon.side_length, Polygon.apothem]
  · cases pc <;> cases sc <;>
      simp [Polygon.perimeter, Polygon.side_length]

lemma clearCaches_invalidate (p : Polygon) :
    ClearCaches p.invalidate_cache :=
  ⟨rfl, rfl, rfl, rfl, rfl⟩

lemma countersEq_invalidate (p : Polygon) :
    CountersEq p p.invalidate_cache :=
  ⟨rfl, rfl, rfl, rfl, rfl⟩

lemma countersLe_refl (p : Polygon) : CountersLe p p :=
  ⟨le_refl _, le_refl _, le_refl _, le_refl _, le_refl _⟩

lemma countersLe_trans {p q r : Polygon} (h1 : CountersLe p q)
    (h2 : CountersLe q r) : CountersLe p r :=
  ⟨h1.1.trans h2.1, h1.2.1.trans h2.2.1, h1.2.2.1.trans h2.2.2.1,
    h1.2.2.2.1.trans h2.2.2.2.1, h1.2.2.2.2.trans h2.2.2.2.2⟩

lemma countersLe_applyOp (p : Polygon) (op : PolyOp) :
    CountersLe p (applyOp p op) := by
  obtain ⟨n, R, ic, sc, ac, arc, pc, c1, c2, c3, c4, c5⟩ := p
  cases op with
  | setN k =>
      by_cases hk : k < 3 <;>
        simp [applyOp, Polygon.set_count_vertices, Polygon.invalidate_cache,
          hk, CountersLe]
  | setR r =>
      simp [applyOp, Polygon.set_circumradius, Polygon.invalidate_cache,
        CountersLe]
  | readAngle =>
      cases ic <;> simp [applyOp, Polygon.interior_angle, CountersLe]
  | readSide =>
      cases sc <;> simp [applyOp, Polygon.side_length, CountersLe]
  | readApothem =>
      cases ac <;> simp [applyOp, Polygon.apothem, CountersLe]
  | readArea =>
      cases arc <;> cases sc <;> cases ac <;>
        simp [applyOp, Polygon.area, Polygon.side_length, Polygon.apothem,
          CountersLe]
  | readPerimeter =>
      cases pc <;> cases sc <;>
        simp [applyOp, Polygon.perimeter, Polygon.side_length, CountersLe]

lemma countersLe_applyOps (p : Polygon) (ops : List PolyOp) :
    CountersLe p (applyOps p ops) := by
  induction ops generalizing p with
  | nil => exact countersLe_refl p
  | cons op tl ih =>
      exact countersLe_trans (countersLe_applyOp p op) (ih (applyOp p op))

lemma sideApoInv_applyRead (cs ca : ℕ) (p : Polygon) (op : ReadOp)
    (h : SideApoInv cs ca p) : SideApoInv cs ca (applyRead p op) := by
  obtain ⟨hs1, hs2, ha1, ha2⟩ := h
  obtain ⟨n, R, ic, sc, ac, arc, pc, c1, c2, c3, c4, c5⟩ := p
  simp only at hs1 hs2 ha1 ha2
  cases op with
  | readAngle =>
      cases ic <;>
        simp_all [applyRead, Polygon.interior_angle, SideApoInv]
  | readSide =>
      cases sc <;>
        simp_all [applyRead, Polygon.side_length, SideApoInv]
  | readApothem =>
      cases ac <;>
        simp_all [applyRead, Polygon.apothem, SideApoInv]
  | readArea =>
      cases arc <;> cases sc <;> cases ac <;>
        simp_all [applyRead, Polygon.area, Polygon.side_length,
          Polygon.apothem, SideApoInv]
  | readPerimeter =>
      cases pc <;> cases sc <;>
        simp_all [applyRead, Polygon.perimeter, Polygon.side_length,
          SideApoInv]

lemma sideApoInv_applyReads (cs ca : ℕ) (p : Polygon) (ops : List ReadOp)
    (h : SideApoInv cs ca p) : SideApoInv cs ca (applyReads p ops) := by
  induction ops generalizing p with
  | nil => exact h
  | cons op tl ih => exact ih (applyRead p op) (sideApoInv_applyRead cs ca p op h)

lemma getters_of_consistent (p : Polygon) (h : Consistent p) :
    (Polygon.interior_angle p).1 = ((p.n : ℝ) - 2) * 180 / (p.n : ℝ) ∧
    (Polygon.side_length p).1 = 2 * p.R * Real.sin (Real.pi / (p.n : ℝ)) ∧
    (Polygon.apothem p).1 = p.R * Real.cos (Real.pi / (p.n : ℝ)) ∧
    (Polygon.area p).1 = (p.n : ℝ) / 2 * (Polygon.side_length p).1
      * (Polygon.apothem p).1 ∧
    (Polygon.perimeter p).1 = (p.n : ℝ) * (Polygon.side_length p).1 := by
  obtain ⟨h1, h2, h3, h4, h5⟩ := h
  obtain ⟨n, R, ic, sc, ac, arc, pc, c1, c2, c3, c4, c5⟩ := p
  simp only at h1 h2 h3 h4 h5
  refine ⟨?_, ?_, ?_, ?_, ?_⟩
  · cases ic with
    | none => simp [Polygon.interior_angle]
    | some v => simp [Polygon.interior_angle, h1 v rfl]
  · cases sc with
    | none => simp [Polygon.side_length]
    | some v => simp [Polygon.side_length, h2 v rfl]
  · cases ac with
    | none => simp [Polygon.apothem]
    | some v => simp [Polygon.apothem, h3 v rfl]
  · cases arc with
    | none =>
        cases sc with
        | none =>
            cases ac with
            | none => simp [Polygon.area, Polygon.side_length, Polygon.apothem]
            | some v =>
                simp [Polygon.area, Polygon.side_length, Polygon.apothem,
                  h3 v rfl]
        | some w =>
            cases ac with
            | none =>
                simp [Polygon.area, Polygon.side_length, Polygon.apothem,
                  h2 w rfl]
            | some v =>
                simp [Polygon.area, Polygon.side_length, Polygon.apothem,
                  h2 w rfl, h3 v rfl]
    | some v =>
        cases sc with
        | none =>
            cases ac with
            | none =>
                simp [Polygon.area, Polygon.side_length, Polygon.apothem,
                  h4 v rfl]
            | some w =>
                simp [Polygon.area, Polygon.side_length, Polygon.apothem,
                  h4 v rfl, h3 w rfl]
        | some w =>
            cases ac with
            | none =>
                simp [Polygon.area, Polygon.side_length, Polygon.apothem,
                  h4 v rfl, h2 w rfl]
            | some u =>
                simp [Polygon.area, Polygon.side_length, Polygon.apothem,
                  h4 v rfl, h2 w rfl, h3 u rfl]
  · cases pc with
    | none =>
        cases sc with
        | none => simp [Polygon.perimeter, Polygon.side_length]
        | some w => simp [Polygon.perimeter, Polygon.side_length, h2 w rfl]
    | some v =>
        cases sc with
        | none => simp [Polygon.perimeter, Polygon.side_length, h5 v rfl]
        | some w =>
            simp [Polygon.perimeter, Polygon.side_length, h5 v rfl, h2 w rfl]

/-! ### Claim theorems: cache invalidation, laziness, counters -/

/-- C1.  A mutation of either primitive (any `circumradius` assignment, a
successful `count_vertices` assignment) clears all five cached slots and
leaves every counter unchanged; from the cleared state the next read of
each derived property recomputes it from the new primitives, stores it,
and increments exactly that property's counter by one; and over an
arbitrary lifetime (any sequence of reads and mutations) every counter is
monotonically non-decreasing, hence never reset to zero. -/
theorem c1_invalidation_and_counters (p : Polygon) (k : ℤ) (r : ℝ)
    (hk : 3 ≤ k) (ops : List PolyOp) :
    ClearCaches (Polygon.set_circumradius p r) ∧
    CountersEq p (Polygon.set_circumradius p r) ∧
    RecomputeSpec (Polygon.set_circumradius p r) ∧
    (Polygon.set_count_vertices p k).1 = none ∧
    ClearCaches (Polygon.set_count_vertices p k).2 ∧
    CountersEq p (Polygon.set_count_vertices p k).2 ∧
    RecomputeSpec (Polygon.set_count_vertices p k).2 ∧
    CountersLe p (applyOps p ops) := by
  have hk3 : ¬ k < 3 := not_lt.mpr hk
  refine ⟨clearCaches_invalidate _, countersEq_invalidate _,
    recomputeSpec_of_clearCaches _ (clearCaches_invalidate _), ?_, ?_, ?_, ?_,
    countersLe_applyOps p ops⟩
  · simp [Polygon.set_count_vertices, hk3]
  · simp only [Polygon.set_count_vertices, hk3, if_false]
    exact clearCaches_invalidate _
  · simp only [Polygon.set_count_vertices, hk3, if_false]
    exact countersEq_invalidate _
  · simp only [Polygon.set_count_vertices, hk3, if_false]
    exact recomputeSpec_of_clearCaches _ (clearCaches_invalidate _)

/-- Witness for C1 at a concrete instance. -/
theorem c1_invalidation_and_counters_witness :
    (3 : ℤ) ≤ 5 ∧
    (ClearCaches (Polygon.set_circumradius (freshPolygon 4 1) 2) ∧
      CountersEq (freshPolygon 4 1) (Polygon.set_circumradius (freshPolygon 4 1) 2) ∧
      RecomputeSpec (Polygon.set_circumradius (freshPolygon 4 1) 2) ∧
      (Polygon.set_count_vertices (freshPolygon 4 1) 5).1 = none ∧
      ClearCaches (Polygon.set_count_vertices (freshPolygon 4 1) 5).2 ∧
      CountersEq (freshPolygon 4 1) (Polygon.set_count_vertices (freshPolygon 4 1) 5).2 ∧
      RecomputeSpec (Polygon.set_count_vertices (freshPolygon 4 1) 5).2 ∧
      CountersLe (freshPolygon 4 1)
        (applyOps (freshPolygon 4 1) [PolyOp.readArea, PolyOp.readPerimeter])) :=
  ⟨by decide,
    c1_invalidation_and_counters (freshPolygon 4 1) 5 2 (by decide)
      [PolyOp.readArea, PolyOp.readPerimeter]⟩

/-- C2.  From any state with all caches empty (right after construction or
after an invalidation) the first read of each derived property computes
its value, stores it and increments exactly its counter by one; and for
every state, a repeated read of a derived property returns the identical
stored value and leaves the state, counters included, unchanged. -/
theorem c2_first_read_then_idempotent (p : Polygon) (h : ClearCaches p) :
    RecomputeSpec p ∧ ∀ q : Polygon, IdemSpec q :=
  ⟨recomputeSpec_of_clearCaches p h, idemSpec_all⟩

/-- Witness for C2 at a concrete instance. -/
theorem c2_first_read_then_idempotent_witness :
    ClearCaches (freshPolygon 4 1) ∧
    (RecomputeSpec (freshPolygon 4 1) ∧ ∀ q : Polygon, IdemSpec q) :=
  ⟨⟨rfl, rfl, rfl, rfl, rfl⟩,
    c2_first_read_then_idempotent (freshPolygon 4 1) ⟨rfl, rfl, rfl, rfl, rfl⟩⟩

/-- C6.  Construction and the `count_vertices` setter fail exactly when
the supplied vertex count is below 3 (so 2, 0 and negative counts all
fail), a failed setter leaves the instance completely unchanged, and a
successful construction returns the fresh instance. -/
theorem c6_vertex_count_validation (j : ℤ) (R : ℝ) (q : Polygon) :
    ((∃ e, mkPolygon j R = Except.error e) ↔ j < 3) ∧
    ((Polygon.set_count_vertices q j).1 ≠ none ↔ j < 3) ∧
    (j < 3 → (Polygon.set_count_vertices q j).2 = q) ∧
    (3 ≤ j → mkPolygon j R = Except.ok (freshPolygon j R)) := by
  by_cases hj : j < 3
  · simp [mkPolygon, Polygon.set_count_vertices, hj, not_le.mpr hj]
  · simp [mkPolygon, Polygon.set_count_vertices, hj]

/-- Witness for C6: vertex counts 2, 0 and -1 are rejected by the
constructor, a rejected setter call leaves the instance unchanged, and a
valid construction succeeds. -/
theorem c6_vertex_count_validation_witness :
    (∃ e, mkPolygon 2 10 = Except.error e) ∧
    (∃ e, mkPolygon 0 10 = Except.error e) ∧
    (∃ e, mkPolygon (-1) 10 = Except.error e) ∧
    (Polygon.set_count_vertices (freshPolygon 3 1) 2).2 = freshPolygon 3 1 ∧
    mkPolygon 5 10 = Except.ok (freshPolygon 5 10) :=
  ⟨(c6_vertex_count_validation 2 10 (freshPolygon 3 1)).1.mpr (by decide),
    (c6_vertex_count_validation 0 10 (freshPolygon 3 1)).1.mpr (by decide),
    (c6_vertex_count_validation (-1) 10 (freshPolygon 3 1)).1.mpr (by decide),
    (c6_vertex_count_validation 2 10 (freshPolygon 3 1)).2.2.1 (by decide),
    (c6_vertex_count_validation 5 10 (freshPolygon 3 1)).2.2.2 (by decide)⟩

/-- C8.  Between two `Polygon` instances, `__eq__` answers true exactly
when both the vertex count and the circumradius agree (cached fields and
counters are never consulted), and `__gt__` answers true exactly when the
left vertex count is strictly larger, ignoring the circumradius. -/
theorem c8_eq_and_gt_semantics (p q : Polygon) :
    (Polygon.eqOp (β := Unit) p (Sum.inl q) = some true ↔
      p.n = q.n ∧ p.R = q.R) ∧
    (Polygon.eqOp (β := Unit) p (Sum.inl q) = some false ↔
      ¬ (p.n = q.n ∧ p.R = q.R)) ∧
    (Polygon.gtOp (β := Unit) p (Sum.inl q) = some true ↔ q.n < p.n) ∧
    (Polygon.gtOp (β := Unit) p (Sum.inl q) = some false ↔ ¬ q.n < p.n) := by
  constructor
  · by_cases h : p.n = q.n ∧ p.R = q.R <;>
      simp [Polygon.eqOp, Polygon.count_edges, Polygon.circumradius, h]
  constructor
  · by_cases h : p.n = q.n ∧ p.R = q.R <;>
      simp [Polygon.eqOp, Polygon.count_edges, Polygon.circumradius, h]
  constructor
  · by_cases h : q.n < p.n <;>
      simp [Polygon.gtOp, Polygon.count_vertices, h]
  · by_cases h : q.n < p.n <;>
      simp [Polygon.gtOp, Polygon.count_vertices, h]

/-- C9.  Compared against any operand that is not a `Polygon`, both
`__eq__` and `__gt__` return the `NotImplemented` sentinel rather than a
default boolean. -/
theorem c9_not_comparable (β : Type) (x : β) (p : Polygon) :
    Polygon.eqOp p (Sum.inr x) = none ∧
    Polygon.gtOp p (Sum.inr x) = none :=
  ⟨rfl, rfl⟩

/-- C10.  Invalidation is unconditional: setting `circumradius` to its
current value, or `count_vertices` to its current (valid) value, still
succeeds and clears all five cached slots, so the next read of each
derived property recomputes it and increments its counter. -/
theorem c10_unconditional_invalidation (p : Polygon) (h : 3 ≤ p.n) :
    ClearCaches (Polygon.set_circumradius p p.R) ∧
    RecomputeSpec (Polygon.set_circumradius p p.R) ∧
    (Polygon.set_count_vertices p p.n).1 = none ∧
    ClearCaches (Polygon.set_count_vertices p p.n).2 ∧
    RecomputeSpec (Polygon.set_count_vertices p p.n).2 := by
  have h3 : ¬ p.n < 3 := not_lt.mpr h
  refine ⟨clearCaches_invalidate _,
    recomputeSpec_of_clearCaches _ (clearCaches_invalidate _), ?_, ?_, ?_⟩
  · simp [Polygon.set_count_vertices, h3]
  · simp only [Polygon.set_count_vertices, h3, if_false]
    exact clearCaches_invalidate _
  · simp only [Polygon.set_count_vertices, h3, if_false]
    exact recomputeSpec_of_clearCaches _ (clearCaches_invalidate _)

/-- Witness for C10 at a concrete instance. -/
theorem c10_unconditional_invalidation_witness :
    (3 : ℤ) ≤ (freshPolygon 4 1).n ∧
    (ClearCaches (Polygon.set_circumradius (freshPolygon 4 1) (freshPolygon 4 1).R) ∧
      RecomputeSpec (Polygon.set_circumradius (freshPolygon 4 1) (freshPolygon 4 1).R) ∧
      (Polygon.set_count_vertices (freshPolygon 4 1) (freshPolygon 4 1).n).1 = none ∧
      ClearCaches (Polygon.set_count_vertices (freshPolygon 4 1) (freshPolygon 4 1).n).2 ∧
      RecomputeSpec (Polygon.set_count_vertices (freshPolygon 4 1) (freshPolygon 4 1).n).2) :=
  ⟨by decide, c10_unconditional_invalidation (freshPolygon 4 1) (by decide)⟩

/-- C3.  Starting from any instance whose caches have just been
invalidated, an arbitrary sequence of derived-property reads (in
particular any sequence containing `area` and `perimeter`) increments the
`side_length` counter at most once and the `apothem` counter at most once
in total: the dependent getters reuse the cached dependency instead of
recomputing it. -/
theorem c3_no_redundant_recomputation (q : Polygon) (ops : List ReadOp) :
    (applyReads q.invalidate_cache ops).side_length_calls ≤
      q.side_length_calls + 1 ∧
    (applyReads q.invalidate_cache ops).apothem_calls ≤
      q.apothem_calls + 1 := by
  have h0 : SideApoInv q.side_length_calls q.apothem_calls
      q.invalidate_cache :=
    ⟨Nat.le_succ _, fun _ => le_refl _, Nat.le_succ _, fun _ => le_refl _⟩
  have h := sideApoInv_applyReads q.side_length_calls q.apothem_calls
    q.invalidate_cache ops h0
  exact ⟨h.1, h.2.2.1⟩

/-- C5.  On any instance whose caches are consistent with its primitives
(in particular on any fresh instance), the derived getters return exactly
the specified formulas, and the interior angle lies strictly between 0 and
180 degrees. -/
theorem c5_derived_formulas (p : Polygon) (h : Consistent p)
    (hn : 3 ≤ p.n) :
    (Polygon.interior_angle p).1 = ((p.n : ℝ) - 2) * 180 / (p.n : ℝ) ∧
    0 < (Polygon.interior_angle p).1 ∧ (Polygon.interior_angle p).1 < 180 ∧
    (Polygon.side_length p).1 = 2 * p.R * Real.sin (Real.pi / (p.n : ℝ)) ∧
    (Polygon.apothem p).1 = p.R * Real.cos (Real.pi / (p.n : ℝ)) ∧
    (Polygon.area p).1 = (p.n : ℝ) / 2 * (Polygon.side_length p).1
      * (Polygon.apothem p).1 ∧
    (Polygon.perimeter p).1 = (p.n : ℝ) * (Polygon.side_length p).1 := by
  obtain ⟨e1, e2, e3, e4, e5⟩ := getters_of_consistent p h
  have hn' : (3 : ℝ) ≤ (p.n : ℝ) := by exact_mod_cast hn
  refine ⟨e1, ?_, ?_, e2, e3, e4, e5⟩
  · rw [e1]
    exact div_pos (by linarith) (by linarith)
  · rw [e1, div_lt_iff₀ (by linarith)]
    linarith

/-- Witness for C5 at a fresh square with circumradius 1. -/
theorem c5_derived_formulas_witness :
    Consistent (freshPolygon 4 1) ∧ (3 : ℤ) ≤ (freshPolygon 4 1).n ∧
    ((Polygon.interior_angle (freshPolygon 4 1)).1 =
        (((freshPolygon 4 1).n : ℝ) - 2) * 180 / ((freshPolygon 4 1).n : ℝ) ∧
      0 < (Polygon.interior_angle (freshPolygon 4 1)).1 ∧
      (Polygon.interior_angle (freshPolygon 4 1)).1 < 180 ∧
      (Polygon.side_length (freshPolygon 4 1)).1 =
        2 * (freshPolygon 4 1).R *
          Real.sin (Real.pi / ((freshPolygon 4 1).n : ℝ)) ∧
      (Polygon.apothem (freshPolygon 4 1)).1 =
        (freshPolygon 4 1).R * Real.cos (Real.pi / ((freshPolygon 4 1).n : ℝ)) ∧
      (Polygon.area (freshPolygon 4 1)).1 =
        ((freshPolygon 4 1).n : ℝ) / 2 * (Polygon.side_length (freshPolygon 4 1)).1
          * (Polygon.apothem (freshPolygon 4 1)).1 ∧
      (Polygon.perimeter (freshPolygon 4 1)).1 =
        ((freshPolygon 4 1).n : ℝ) * (Polygon.side_length (freshPolygon 4 1)).1) :=
  ⟨by simp [Consistent, freshPolygon], by decide,
    c5_derived_formulas (freshPolygon 4 1) (by simp [Consistent, freshPolygon])
      (by decide)⟩

/-! ### The sequence and its iterator -/

lemma runIter_formula : ∀ (fuel : ℕ) (it : PolygonIterator),
    (it.m + 1 - it.index).toNat ≤ fuel →
    runIter fuel it = (List.range (it.m + 1 - it.index).toNat).map
      (fun (i : ℕ) => freshPolygon (it.index + (i : ℤ)) it.R) := by
  intro fuel
  induction fuel with
  | zero =>
      intro it h
      have hk : (it.m + 1 - it.index).toNat = 0 := Nat.le_zero.mp h
      simp [runIter, hk]
  | succ f ih =>
      intro it h
      by_cases hstop : it.index > it.m
      · have hk : (it.m + 1 - it.index).toNat = 0 := by omega
        simp [runIter, PolygonIterator.next, hstop, hk]
      · have hk : ∃ j, (it.m + 1 - it.index).toNat = j + 1 := by
          refine ⟨(it.m - it.index).toNat, ?_⟩
          omega
        obtain ⟨j, hj⟩ := hk
        have hnext : PolygonIterator.next it =
            some (freshPolygon it.index it.R,
              { it with index := it.index + 1 }) := by
          simp [PolygonIterator.next, hstop]
        have hj2 : (({ it with index := it.index + 1 } : PolygonIterator).m + 1
            - ({ it with index := it.index + 1 } : PolygonIterator).index).toNat
              = j := by
          simp
          omega
        have ihx := ih { it with index := it.index + 1 } (by rw [hj2]; omega)
        simp only [runIter, hnext]
        rw [ihx, hj, hj2, List.range_succ_eq_map]
        simp [List.map_map]
        intro a ha
        congr 1
        ring

lemma runIter_iter (s : Polygons) (fuel : ℕ)
    (hf : (s.m - 2).toNat ≤ fuel) :
    runIter fuel (Polygons.iter s) = polygonList s.m s.R := by
  have harith : s.m + 1 - 3 = s.m - 2 := by ring
  have h := runIter_formula fuel (Polygons.iter s)
    (by simp only [Polygons.iter, harith]; exact hf)
  rw [h]
  simp only [Polygons.iter, polygonList, harith]

/-- C7.  `len` returns `m - 2`; a fresh iteration pass (any fuel bound of
at least `m - 2` steps) yields exactly the `m - 2` freshly constructed
polygons with vertex counts `3, 4, ..., m` in ascending order, each with
the sequence's circumradius, and then stops.  Every pass starts from
`Polygons.iter s`, so independent passes observe the same full range. -/
theorem c7_sequence_iteration (s : Polygons) (fuel : ℕ) (h3 : 3 ≤ s.m)
    (hf : (s.m - 2).toNat ≤ fuel) :
    Polygons.len s = s.m - 2 ∧
    runIter fuel (Polygons.iter s) = polygonList s.m s.R ∧
    (polygonList s.m s.R).length = (s.m - 2).toNat ∧
    ∀ (i : ℕ) (hi : i < (polygonList s.m s.R).length),
      (polygonList s.m s.R).get ⟨i, hi⟩ = freshPolygon (3 + (i : ℤ)) s.R := by
  refine ⟨rfl, runIter_iter s fuel hf, by simp [polygonList], ?_⟩
  intro i hi
  simp [polygonList]

/-- Witness for C7: the sequence with maximum vertex count 10 and
circumradius 1 has 8 elements and a pass of 8 steps yields them all. -/
theorem c7_sequence_iteration_witness :
    (3 : ℤ) ≤ (Polygons.mk 10 1).m ∧
    ((Polygons.mk 10 1).m - 2).toNat ≤ 8 ∧
    (Polygons.len (Polygons.mk 10 1) = (Polygons.mk 10 1).m - 2 ∧
      runIter 8 (Polygons.iter (Polygons.mk 10 1)) =
        polygonList (Polygons.mk 10 1).m (Polygons.mk 10 1).R ∧
      (polygonList (Polygons.mk 10 1).m (Polygons.mk 10 1).R).length =
        ((Polygons.mk 10 1).m - 2).toNat ∧
      ∀ (i : ℕ)
        (hi : i < (polygonList (Polygons.mk 10 1).m (Polygons.mk 10 1).R).length),
        (polygonList (Polygons.mk 10 1).m (Polygons.mk 10 1).R).get ⟨i, hi⟩ =
          freshPolygon (3 + (i : ℤ)) (Polygons.mk 10 1).R) :=
  ⟨by decide, by decide,
    c7_sequence_iteration (Polygons.mk 10 1) 8 (by decide) (by decide)⟩

/-! ### The maximum-efficiency query -/

lemma effKey_freshPolygon (a : ℤ) (R : ℝ) (h3 : 3 ≤ a) (hR : 0 < R) :
    effKey (freshPolygon a R) = R * Real.cos (Real.pi / (a : ℝ)) / 2 := by
  have ha : (0 : ℝ) < (a : ℝ) := by
    exact_mod_cast lt_of_lt_of_le (by norm_num) h3
  have ha1 : (1 : ℝ) < (a : ℝ) := by
    exact_mod_cast lt_of_lt_of_le (by norm_num) h3
  have hsin : 0 < Real.sin (Real.pi / (a : ℝ)) :=
    Real.sin_pos_of_pos_of_lt_pi (div_pos Real.pi_pos ha)
      (div_lt_self Real.pi_pos ha1)
  have hden : (a : ℝ) * (2 * R * Real.sin (Real.pi / (a : ℝ))) ≠ 0 := by
    positivity
  simp only [effKey, Polygon.area, Polygon.perimeter, Polygon.side_length,
    Polygon.apothem, freshPolygon]
  rw [div_eq_iff hden]
  ring

lemma effKey_mono (a b : ℤ) (R : ℝ) (h3 : 3 ≤ a) (hab : a < b) (hR : 0 < R) :
    effKey (freshPolygon a R) < effKey (freshPolygon b R) := by
  have hb3 : 3 ≤ b := le_of_lt (lt_of_le_of_lt h3 hab)
  rw [effKey_freshPolygon a R h3 hR, effKey_freshPolygon b R hb3 hR]
  have ha : (0 : ℝ) < (a : ℝ) := by
    exact_mod_cast lt_of_lt_of_le (by norm_num) h3
  have hb : (0 : ℝ) < (b : ℝ) := by
    exact_mod_cast lt_of_lt_of_le (by norm_num) hb3
  have ha1 : (1 : ℝ) ≤ (a : ℝ) := by exact_mod_cast le_trans (by norm_num) h3
  have hb1 : (1 : ℝ) ≤ (b : ℝ) := by exact_mod_cast le_trans (by norm_num) hb3
  have hab' : (a : ℝ) < (b : ℝ) := by exact_mod_cast hab
  have hlt : Real.pi / (b : ℝ) < Real.pi / (a : ℝ) :=
    div_lt_div_of_pos_left Real.pi_pos ha hab'
  have hcos : Real.cos (Real.pi / (a : ℝ)) < Real.cos (Real.pi / (b : ℝ)) := by
    apply Real.strictAntiOn_cos
    · exact Set.mem_Icc.mpr ⟨le_of_lt (div_pos Real.pi_pos hb),
        div_le_self (le_of_lt Real.pi_pos) hb1⟩
    · exact Set.mem_Icc.mpr ⟨le_of_lt (div_pos Real.pi_pos ha),
        div_le_self (le_of_lt Real.pi_pos) ha1⟩
    · exact hlt
  nlinarith

open Classical in
lemma foldl_max_getLastD (key : Polygon → ℝ) :
    ∀ (xs : List Polygon) (x : Polygon),
    List.Chain' (fun p q => key p < key q) (x :: xs) →
    xs.foldl (fun best y => if key best < key y then y else best) x =
      xs.getLastD x := by
  intro xs
  induction xs with
  | nil => intro x h; rfl
  | cons y ys ih =>
      intro x h
      rw [List.chain'_cons] at h
      simp only [List.foldl_cons, if_pos h.1, List.getLastD_cons]
      exact ih y h.2

open Classical in
lemma foldl_isFirstMax (key : Polygon → ℝ) :
    ∀ (xs : List Polygon) (x : Polygon),
    IsFirstMax key (x :: xs)
      (xs.foldl (fun best y => if key best < key y then y else best) x) := by
  intro xs
  induction xs with
  | nil =>
      intro x
      exact ⟨[], [], rfl, by simp, by simp⟩
  | cons y ys ih =>
      intro x
      by_cases hxy : key x < key y
      · obtain ⟨l1, l2, hsplit, hpre, hmax⟩ := ih y
        simp only [List.foldl_cons, if_pos hxy]
        set r := ys.foldl (fun best z => if key best < key z then z else best) y
          with hr
        have hyr : key y ≤ key r := hmax y (List.mem_cons_self y ys)
        refine ⟨x :: l1, l2, by rw [List.cons_append, ← hsplit], ?_, ?_⟩
        · intro z hz
          rcases List.mem_cons.mp hz with hz | hz
          · subst hz
            exact lt_of_lt_of_le hxy hyr
          · exact hpre z hz
        · intro z hz
          rcases List.mem_cons.mp hz with hz | hz
          · subst hz
            exact le_of_lt (lt_of_lt_of_le hxy hyr)
          · exact hmax z hz
      · obtain ⟨l1, l2, hsplit, hpre, hmax⟩ := ih x
        simp only [List.foldl_cons, if_neg hxy]
        set r := ys.foldl (fun best z => if key best < key z then z else best) x
          with hr
        have hyx : key y ≤ key x := not_lt.mp hxy
        cases l1 with
        | nil =>
            simp only [List.nil_append] at hsplit
            have hrx : r = x := (List.cons.injEq _ _ _ _ ▸ hsplit).1.symm
            refine ⟨[], y :: ys, ?_, by simp, ?_⟩
            · rw [hrx]
              rfl
            · intro z hz
              rcases List.mem_cons.mp hz with hz | hz
              · subst hz
                rw [hrx]
              · rcases List.mem_cons.mp hz with hz2 | hz2
                · subst hz2
                  rw [hrx]
                  exact hyx
                · exact hmax z (List.mem_cons_of_mem x hz2)
        | cons a t =>
            rw [List.cons_append] at hsplit
            have hax : a = x := ((List.cons.injEq _ _ _ _).mp hsplit).1.symm
            have hys : ys = t ++ r :: l2 :=
              ((List.cons.injEq _ _ _ _).mp hsplit).2
            have hxr : key x < key r := by
              apply hpre
              rw [hax]
              exact List.mem_cons_self x t
            refine ⟨x :: y :: t, l2, ?_, ?_, ?_⟩
            · rw [hys]
              simp
            · intro z hz
              rcases List.mem_cons.mp hz with hz | hz
              · subst hz
                exact hxr
              rcases List.mem_cons.mp hz with hz2 | hz2
              · subst hz2
                exact lt_of_le_of_lt hyx hxr
              · exact hpre z (List.mem_cons_of_mem a hz2)
            · intro z hz
              rcases List.mem_cons.mp hz with hz | hz
              · subst hz
                exact hmax z (List.mem_cons_self z ys)
              rcases List.mem_cons.mp hz with hz2 | hz2
              · subst hz2
                exact le_trans hyx (le_of_lt hxr)
              · exact hmax z (List.mem_cons_of_mem x hz2)

lemma effKeyE_fresh_ok (a : ℤ) (R : ℝ) (h3 : 3 ≤ a) (hR : R ≠ 0) :
    effKeyE (freshPolygon a R) = Except.ok (effKey (freshPolygon a R)) := by
  have ha : (0 : ℝ) < (a : ℝ) := by
    exact_mod_cast lt_of_lt_of_le (by norm_num) h3
  have ha1 : (1 : ℝ) < (a : ℝ) := by
    exact_mod_cast lt_of_lt_of_le (by norm_num) h3
  have hsin : 0 < Real.sin (Real.pi / (a : ℝ)) :=
    Real.sin_pos_of_pos_of_lt_pi (div_pos Real.pi_pos ha)
      (div_lt_self Real.pi_pos ha1)
  have hden : (a : ℝ) * (2 * R * Real.sin (Real.pi / (a : ℝ))) ≠ 0 :=
    mul_ne_zero (ne_of_gt ha)
      (mul_ne_zero (mul_ne_zero two_ne_zero hR) (ne_of_gt hsin))
  simp only [effKeyE, effKey, Polygon.area, Polygon.perimeter,
    Polygon.side_length, Polygon.apothem, freshPolygon]
  rw [if_neg hden]

open Classical in
lemma maxFold_ok (key : Polygon → Except String ℝ) (k : Polygon → ℝ) :
    ∀ (xs : List Polygon) (x : Polygon),
    (∀ y ∈ xs, key y = Except.ok (k y)) →
    maxFold key x (k x) xs =
      Except.ok (xs.foldl (fun best y => if k best < k y then y else best) x) := by
  intro xs
  induction xs with
  | nil => intro x h; rfl
  | cons y ys ih =>
      intro x h
      have hy := h y (List.mem_cons_self y ys)
      have hys : ∀ z ∈ ys, key z = Except.ok (k z) :=
        fun z hz => h z (List.mem_cons_of_mem y hz)
      simp only [maxFold, hy, List.foldl_cons]
      by_cases hk : k x < k y
      · rw [if_pos hk, if_pos hk]
        exact ih y hys
      · rw [if_neg hk, if_neg hk]
        exact ih x hys

lemma chain_effKey (m : ℤ) (R : ℝ) (h3 : 3 ≤ m) (hR : 0 < R) :
    List.Chain' (fun p q => effKey p < effKey q) (polygonList m R) := by
  have hk : ∃ j, (m - 2).toNat = j + 1 := ⟨(m - 3).toNat, by omega⟩
  obtain ⟨j, hj⟩ := hk
  rw [polygonList, List.chain'_map, hj, List.chain'_range_succ]
  intro i hij
  apply effKey_mono _ _ R (by omega) (by omega) hR

lemma polygonList_concat (m : ℤ) (R : ℝ) (h3 : 3 ≤ m) :
    ∃ l0, polygonList m R = l0 ++ [freshPolygon m R] := by
  have hk : ∃ j, (m - 2).toNat = j + 1 := ⟨(m - 3).toNat, by omega⟩
  obtain ⟨j, hj⟩ := hk
  refine ⟨(List.range j).map (fun (i : ℕ) => freshPolygon (3 + (i : ℤ)) R), ?_⟩
  rw [polygonList, hj, List.range_succ, List.map_append]
  simp
  congr 1
  omega

/-- Counterexample to C4 as stated: at circumradius 0 every perimeter is
zero, so the key lambda raises `ZeroDivisionError` inside `max` and
`max_efficiency_polygon` propagates the error instead of returning an
element (here at the smallest sequence, maximum vertex count 3). -/
theorem c4_max_efficiency_counterexample :
    Polygons.max_efficiency_polygon (Polygons.mk 3 0) =
      some (Except.error "float division by zero") := by
  have hlist : polygonList (Polygons.mk 3 0).m (Polygons.mk 3 0).R =
      [freshPolygon 3 0] := by
    norm_num [polygonList, List.range_succ]
  have hkey : effKeyE (freshPolygon 3 0) =
      Except.error "float division by zero" := by
    simp [effKeyE, Polygon.area, Polygon.perimeter, Polygon.side_length,
      Polygon.apothem, freshPolygon]
  simp only [Polygons.max_efficiency_polygon, hlist, maxByKeyE, hkey]

/-- C4 (amended to `R ≠ 0`, where the ratio is defined and the query
returns).  `max_efficiency_polygon` returns the first element of the
iteration order attaining the maximal `area / perimeter` ratio (so the
first maximal element wins ties), and for every positive circumradius
the returned polygon is the one with the maximal vertex count `m`, whose
ratio strictly exceeds that of every other element.  At `R = 0` the
query instead propagates the key's division-by-zero error
(`c4_max_efficiency_counterexample`). -/
theorem c4_max_efficiency (s : Polygons) (h3 : 3 ≤ s.m) (hR : s.R ≠ 0) :
    (∃ r, Polygons.max_efficiency_polygon s = some (Except.ok r) ∧
      IsFirstMax effKey (polygonList s.m s.R) r) ∧
    (0 < s.R →
      Polygons.max_efficiency_polygon s =
        some (Except.ok (freshPolygon s.m s.R)) ∧
      ∀ q ∈ polygonList s.m s.R, q ≠ freshPolygon s.m s.R →
        effKey q < effKey (freshPolygon s.m s.R)) := by
  have hok : ∀ y ∈ polygonList s.m s.R, effKeyE y = Except.ok (effKey y) := by
    intro y hy
    simp only [polygonList, List.mem_map, List.mem_range] at hy
    obtain ⟨i, hi, rfl⟩ := hy
    exact effKeyE_fresh_ok _ _ (by omega) hR
  have hlen : (polygonList s.m s.R).length = (s.m - 2).toNat := by
    simp [polygonList]
  cases hl : polygonList s.m s.R with
  | nil =>
      rw [hl] at hlen
      simp at hlen
      omega
  | cons x xs =>
      rw [hl] at hok
      have hokx : effKeyE x = Except.ok (effKey x) :=
        hok x (List.mem_cons_self x xs)
      have hokxs : ∀ y ∈ xs, effKeyE y = Except.ok (effKey y) :=
        fun y hy => hok y (List.mem_cons_of_mem x hy)
      have hfold := maxFold_ok effKeyE effKey xs x hokxs
      have hmain : Polygons.max_efficiency_polygon s =
          some (Except.ok (xs.foldl
            (fun best y => if effKey best < effKey y then y else best) x)) := by
        simp only [Polygons.max_efficiency_polygon, hl, maxByKeyE, hokx]
        rw [hfold]
      constructor
      · exact ⟨_, hmain, foldl_isFirstMax effKey xs x⟩
      · intro hRpos
        have hchain := chain_effKey s.m s.R h3 hRpos
        rw [hl] at hchain
        have hfold2 := foldl_max_getLastD effKey xs x hchain
        obtain ⟨l0, hconcat⟩ := polygonList_concat s.m s.R h3
        have hlast : xs.getLastD x = freshPolygon s.m s.R := by
          have h1 : (x :: xs).getLastD x = freshPolygon s.m s.R := by
            rw [← hl] at *
            rw [hconcat]
            exact List.getLastD_concat _ _ _
          rw [List.getLastD_cons] at h1
          exact h1
        constructor
        · rw [hmain, hfold2, hlast]
        · intro q hq hqne
          rw [← hl] at hq
          simp only [polygonList, List.mem_map, List.mem_range] at hq
          obtain ⟨i, hi, rfl⟩ := hq
          have hne : 3 + (i : ℤ) ≠ s.m := by
            intro hEq
            apply hqne
            rw [hEq]
          apply effKey_mono _ _ _ (by omega) (by omega) hRpos

/-- Witness for C4: for the sequence with maximum vertex count 5 and
circumradius 1, the query returns the fresh pentagon. -/
theorem c4_max_efficiency_witness :
    (3 : ℤ) ≤ (Polygons.mk 5 1).m ∧ (Polygons.mk 5 1).R ≠ 0 ∧
    0 < (Polygons.mk 5 1).R ∧
    Polygons.max_efficiency_polygon (Polygons.mk 5 1) =
      some (Except.ok (freshPolygon (Polygons.mk 5 1).m (Polygons.mk 5 1).R)) :=
  ⟨by decide, by simp, by simp,
    ((c4_max_efficiency (Polygons.mk 5 1) (by decide) (by simp)).2 (by simp)).1⟩
